import Mathlib

/-!
Shallow embedding of src/azure_adls.py: a minimal authentication API that
stores one JSON record per user in a hierarchical blob store (Azure ADLS),
with bcrypt password hashing.  External collaborators of that file (the ADLS
SDK client objects, the bcrypt library, the Python json module) are modelled
explicitly; the state of the remote storage service is passed as an explicit
value through every operation.
-/

/-- Python exceptions that the source raises or catches: the two
azure.core.exceptions error types, fastapi.HTTPException (carrying a status
code and a detail message), ValueError as raised by the bcrypt library,
the decoding error of the json module, and dict KeyError. -/
inductive PyErr where
  | resourceNotFound : PyErr
  | resourceExists : PyErr
  | httpException (statusCode : Nat) (detail : String) : PyErr
  | valueError (msg : String) : PyErr
  | jsonDecodeError : PyErr
  | keyError (key : String) : PyErr
  deriving DecidableEq

deriving instance DecidableEq for Except

/-- Lower-case hexadecimal digit character for a digit below 16, as produced
by Python percent-x formatting. -/
def hexDigitChar (d : Nat) : Char :=
  if d = 0 then '0' else if d = 1 then '1' else if d = 2 then '2'
  else if d = 3 then '3' else if d = 4 then '4' else if d = 5 then '5'
  else if d = 6 then '6' else if d = 7 then '7' else if d = 8 then '8'
  else if d = 9 then '9' else if d = 10 then 'a' else if d = 11 then 'b'
  else if d = 12 then 'c' else if d = 13 then 'd' else if d = 14 then 'e'
  else 'f'

/-- Numeric value of a hexadecimal digit character, none for any other
character. -/
def hexVal (c : Char) : Option Nat :=
  if c = '0' then some 0 else if c = '1' then some 1 else if c = '2' then some 2
  else if c = '3' then some 3 else if c = '4' then some 4 else if c = '5' then some 5
  else if c = '6' then some 6 else if c = '7' then some 7 else if c = '8' then some 8
  else if c = '9' then some 9
  else if c = 'a' ∨ c = 'A' then some 10
  else if c = 'b' ∨ c = 'B' then some 11
  else if c = 'c' ∨ c = 'C' then some 12
  else if c = 'd' ∨ c = 'D' then some 13
  else if c = 'e' ∨ c = 'E' then some 14
  else if c = 'f' ∨ c = 'F' then some 15
  else none

/-- Four-digit lower-case hexadecimal rendering of a scalar below 0x10000. -/
def hex4 (n : Nat) : List Char :=
  [hexDigitChar (n / 4096), hexDigitChar (n / 256 % 16),
   hexDigitChar (n / 16 % 16), hexDigitChar (n % 16)]

/-- Combined value of four hexadecimal digit characters. -/
def hex4Val (a b c d : Char) : Option Nat :=
  match hexVal a, hexVal b, hexVal c, hexVal d with
  | some w, some x, some y, some z => some (w * 4096 + x * 256 + y * 16 + z)
  | _, _, _, _ => none

/-- UTF-8 encoding of one unicode scalar value as a list of byte values;
models Python str.encode("utf-8") at the character level. -/
def charUtf8 (c : Char) : List Nat :=
  let v := c.toNat
  if v < 128 then [v]
  else if v < 2048 then [192 + v / 64, 128 + v % 64]
  else if v < 65536 then [224 + v / 4096, 128 + v / 64 % 64, 128 + v % 64]
  else [240 + v / 262144, 128 + v / 4096 % 64, 128 + v / 64 % 64, 128 + v % 64]

def strUtf8Aux : List Char → List Nat
  | [] => []
  | c :: cs => charUtf8 c ++ strUtf8Aux cs

/-- UTF-8 encoding of a whole string as a list of byte values; models the
str.encode("utf-8") calls of the source. -/
def strUtf8 (s : String) : List Nat := strUtf8Aux s.data

/-- Association-list lookup; models both Python dict access (the deserialised
user record) and lookup of a file path among the files of the store. -/
def alistGet : List (String × String) → String → Option String
  | [], _ => none
  | p :: rest, key => if p.1 = key then some p.2 else alistGet rest key

/-- Association-list update: replace the value at the key in place, or append
the binding; models overwriting the file stored at a path. -/
def alistSet : List (String × String) → String → String → List (String × String)
  | [], key, v => [(key, v)]
  | p :: rest, key, v => if p.1 = key then (key, v) :: rest else p :: alistSet rest key v

namespace bcrypt

/-- The version-and-cost section that opens every well-formed bcrypt salt or
hash string in modular-crypt format. -/
def saltMagic : List Char := ['$', '2', 'b', '$', '1', '2', '$']

/-- Two lower-case hex characters for one byte value. -/
def byteHexChars (b : Nat) : List Char := [hexDigitChar (b / 16 % 16), hexDigitChar (b % 16)]

/-- Hex rendering of a byte list, two characters per byte. -/
def bytesHex : List Nat → List Char
  | [] => []
  | b :: bs => byteHexChars b ++ bytesHex bs

/-- Model of bcrypt.gensalt() from the external bcrypt library: a salt string
made of the version/cost section followed by the random salt material.  The
randomness the library draws is supplied as the numeric argument. -/
def gensalt (r : Nat) : String := String.mk (saltMagic ++ hex4 (r % 65536))

/-- Model of bcrypt.hashpw from the external bcrypt library, following the
documented behaviour of the library: the salt argument (or a full hash, whose salt
section is then reused) must be well formed, otherwise ValueError
("Invalid salt") is raised; the bcrypt algorithm reads the password as bytes
and ignores every byte after the 72nd.  The digest is idealised as an
injective hex encoding of the truncated password bytes; the real digest is a
one-way function of exactly the same data. -/
def hashpw (passwordBytes : List Nat) (salt : String) : Except PyErr String :=
  if salt.data.take 7 = saltMagic ∧ 11 ≤ salt.data.length then
    Except.ok (String.mk (saltMagic ++ (salt.data.drop 7).take 4 ++ bytesHex (passwordBytes.take 72)))
  else Except.error (PyErr.valueError "Invalid salt")

/-- Model of bcrypt.checkpw from the external bcrypt library: recompute the
hash of the candidate password using the salt section of the stored hash and
compare; a ValueError raised by hashpw for a malformed stored hash (for
example an empty string) propagates. -/
def checkpw (passwordBytes : List Nat) (hashedPassword : String) : Except PyErr Bool :=
  match hashpw passwordBytes hashedPassword with
  | Except.ok ret => Except.ok (decide (ret = hashedPassword))
  | Except.error e => Except.error e

end bcrypt

namespace json

/-- Escape of one character inside a JSON string literal, exactly as Python
json.dumps with its default ensure_ascii=True renders it: the short named
escapes, a unicode escape (a surrogate pair above the basic plane) for every
other character outside printable ASCII, and the character itself otherwise. -/
def escChar (c : Char) : List Char :=
  if c = '"' then ['\\', '"']
  else if c = '\\' then ['\\', '\\']
  else if c = '\x08' then ['\\', 'b']
  else if c = '\x09' then ['\\', 't']
  else if c = '\x0a' then ['\\', 'n']
  else if c = '\x0c' then ['\\', 'f']
  else if c = '\x0d' then ['\\', 'r']
  else if c.toNat < 32 ∨ 126 < c.toNat then
    if c.toNat < 65536 then '\\' :: 'u' :: hex4 c.toNat
    else ('\\' :: 'u' :: hex4 (55296 + (c.toNat - 65536) / 1024)) ++
         ('\\' :: 'u' :: hex4 (56320 + (c.toNat - 65536) % 1024))
  else [c]

def escStr : List Char → List Char
  | [] => []
  | c :: cs => escChar c ++ escStr cs

/-- One step of the JSON string-literal scanner: from the input beyond the
opening quote, either consume the closing quote (some (none, rest)), decode
one character, possibly written as one of the escape sequences Python
json.loads accepts (some (some c, rest)), or report malformed input (none).
Every successful step consumes at least one input character. -/
def jstrStep : List Char → Option (Option Char × List Char)
  | [] => none
  | c :: rest =>
    if c = '"' then some (none, rest)
    else if c = '\\' then
      match rest with
      | [] => none
      | e :: rest1 =>
        if e = 'u' then
          match rest1 with
          | a :: b :: c2 :: d :: rest2 =>
            match hex4Val a b c2 d with
            | none => none
            | some n =>
              if n < 55296 then some (some (Char.ofNat n), rest2)
              else if n < 56320 then
                match rest2 with
                | e1 :: e2 :: a2 :: b2 :: c3 :: d2 :: rest3 =>
                  if e1 = '\\' ∧ e2 = 'u' then
                    match hex4Val a2 b2 c3 d2 with
                    | some m =>
                      if 56320 ≤ m ∧ m < 57344 then
                        some (some (Char.ofNat (65536 + (n - 55296) * 1024 + (m - 56320))), rest3)
                      else none
                    | none => none
                  else none
                | _ => none
              else if n < 57344 then none
              else some (some (Char.ofNat n), rest2)
          | _ => none
        else if e = '"' then some (some '"', rest1)
        else if e = '\\' then some (some '\\', rest1)
        else if e = '/' then some (some '/', rest1)
        else if e = 'b' then some (some '\x08', rest1)
        else if e = 'f' then some (some '\x0c', rest1)
        else if e = 'n' then some (some '\x0a', rest1)
        else if e = 'r' then some (some '\x0d', rest1)
        else if e = 't' then some (some '\x09', rest1)
        else none
    else if c.toNat < 32 then none
    else some (some c, rest)

/-- The string-literal scanner iterated: decode characters until the closing
quote.  The fuel only bounds the number of steps; since every step consumes
input, the input length is always enough fuel. -/
def parseJStrAux : Nat → List Char → Option (List Char × List Char)
  | 0, _ => none
  | fuel + 1, l =>
    match jstrStep l with
    | none => none
    | some (none, rest) => some ([], rest)
    | some (some c, rest) =>
      match parseJStrAux fuel rest with
      | some (s, r) => some (c :: s, r)
      | none => none

/-- Parser for the body of a JSON string literal (after the opening quote), up
to and past the closing quote; returns the decoded characters and the
remaining input. -/
def parseJStr (l : List Char) : Option (List Char × List Char) :=
  parseJStrAux l.length l

/-- A complete JSON string literal, quotes included. -/
def jstrChars (s : String) : List Char := '"' :: escStr s.data ++ ['"']

/-- One key-value member of a JSON object, with the default ": " separator of
Python json.dumps. -/
def entryChars (kv : String × String) : List Char :=
  jstrChars kv.1 ++ ':' :: ' ' :: jstrChars kv.2

/-- The members of a JSON object joined by the default ", " item separator of
Python json.dumps. -/
def membersChars : List (String × String) → List Char
  | [] => []
  | [kv] => entryChars kv
  | kv :: kv2 :: rest => entryChars kv ++ ',' :: ' ' :: membersChars (kv2 :: rest)

/-- Model of Python json.dumps on the flat string-valued dict this program
serialises (insertion-ordered keys, default separators, default
ensure_ascii=True escaping). -/
def dumps (obj : List (String × String)) : String :=
  String.mk ('\x7b' :: membersChars obj ++ ['\x7d'])

/-- Parser for one key-value member in the concrete shape json.dumps emits:
a string literal, the ": " separator, and a string literal. -/
def parseEntry (l : List Char) : Option ((String × String) × List Char) :=
  match l with
  | [] => none
  | c :: rest =>
    if c = '"' then
      match parseJStr rest with
      | none => none
      | some (k, r1) =>
        match r1 with
        | c1 :: c2 :: r2 =>
          if c1 = ':' ∧ c2 = ' ' then
            match r2 with
            | [] => none
            | c3 :: r3 =>
              if c3 = '"' then
                match parseJStr r3 with
                | none => none
                | some (v, r4) => some ((String.mk k, String.mk v), r4)
              else none
          else none
        | _ => none
    else none

/-- Member list parser; consumes members joined by ", " up to and past the
closing brace.  The fuel only bounds the recursion and is in practice at
least the number of members. -/
def parseMembers : Nat → List Char → Option (List (String × String) × List Char)
  | 0, _ => none
  | fuel + 1, l =>
    match parseEntry l with
    | none => none
    | some (kv, r4) =>
      match r4 with
      | [] => none
      | c4 :: r5 =>
        if c4 = '\x7d' then some ([kv], r5)
        else if c4 = ',' then
          match r5 with
          | [] => none
          | c5 :: r6 =>
            if c5 = ' ' then
              match parseMembers fuel r6 with
              | some (ms, r7) => some (kv :: ms, r7)
              | none => none
            else none
        else none

/-- Insertion of one parsed member into the dict under construction, with the
semantics of a Python dict: a repeated key keeps its first position and takes
the latest value. -/
def dictInsert (l : List (String × String)) (kv : String × String) : List (String × String) :=
  if (alistGet l kv.1).isSome then
    l.map (fun p => if p.1 = kv.1 then (p.1, kv.2) else p)
  else l ++ [kv]

/-- The dict built from the parsed member sequence. -/
def fromPairs (ps : List (String × String)) : List (String × String) :=
  ps.foldl dictInsert []

/-- Model of Python json.loads on the JSON documents this program stores: a
flat object of string values in the exact concrete format json.dumps emits;
any other document is a decoding failure. -/
def loads (s : String) : Option (List (String × String)) :=
  match s.data with
  | [] => none
  | c :: rest =>
    if c = '\x7b' then
      match rest with
      | [] => none
      | c2 :: rest2 =>
        if c2 = '\x7d' then (if rest2 = [] then some [] else none)
        else
          match parseMembers rest.length rest with
          | some (ms, r) => if r = [] then some (fromPairs ms) else none
          | none => none
    else none

end json

/-- State of the external ADLS storage service as the program observes it:
whether the "memento-users" file system and its "users" directory exist, and
the files of that directory as path-to-raw-content bindings. -/
structure AdlsState where
  fileSystemExists : Bool
  directoryExists : Bool
  files : List (String × String)
  deriving DecidableEq

/-- Model of FileSystemClient.create_file_system from the ADLS SDK: raises
ResourceExistsError when the file system is already there. -/
def create_file_system (s : AdlsState) : Except PyErr Unit × AdlsState :=
  if s.fileSystemExists then (Except.error PyErr.resourceExists, s)
  else (Except.ok (), { s with fileSystemExists := true })

/-- Model of DirectoryClient.create_directory from the ADLS SDK: raises
ResourceExistsError when the directory is already there. -/
def create_directory (s : AdlsState) : Except PyErr Unit × AdlsState :=
  if s.directoryExists then (Except.error PyErr.resourceExists, s)
  else (Except.ok (), { s with directoryExists := true })

/-- The try/except ResourceExistsError: pass pattern of the source, which
swallows exactly the "already exists" storage error and nothing else. -/
def swallowExists (r : Except PyErr Unit × AdlsState) : Except PyErr Unit × AdlsState :=
  match r with
  | (Except.error PyErr.resourceExists, s) => (Except.ok (), s)
  | other => other

/-- ensure_filesystem_and_directory from the source: ensure file system and
directory exist in ADLS, called on startup; each of the two creations has its
ResourceExistsError swallowed. -/
def ensure_filesystem_and_directory (s : AdlsState) : Except PyErr Unit × AdlsState :=
  match swallowExists (create_file_system s) with
  | (Except.ok _, s1) => swallowExists (create_directory s1)
  | (Except.error e, s1) => (Except.error e, s1)

/-- user_file_client from the source reduced to the name it addresses: the
file for an email is "<email>.json" inside the users directory. -/
def user_file_name (email : String) : String := email ++ ".json"

/-- Model of DataLakeFileClient.get_file_properties: raises
ResourceNotFoundError when no file is present at the path. -/
def get_file_properties (s : AdlsState) (name : String) : Except PyErr Unit :=
  match alistGet s.files name with
  | some _ => Except.ok ()
  | none => Except.error PyErr.resourceNotFound

/-- user_exists from the source: check if a user file already exists; the
try/except converts ResourceNotFoundError, and only it, into false. -/
def user_exists (s : AdlsState) (email : String) : Except PyErr Bool :=
  match get_file_properties s (user_file_name email) with
  | Except.ok _ => Except.ok true
  | Except.error PyErr.resourceNotFound => Except.ok false
  | Except.error e => Except.error e

/-- write_user_record from the source: read data["email"] (KeyError when the
key is missing), serialise the whole record with json.dumps, create the file
(dropping any previous content), append the full content at offset 0 and
flush it, so the serialised record replaces whatever "<email>.json" held. -/
def write_user_record (data : List (String × String)) (s : AdlsState) :
    Except PyErr Unit × AdlsState :=
  match alistGet data "email" with
  | none => (Except.error (PyErr.keyError "email"), s)
  | some email =>
    (Except.ok (),
     { s with files := alistSet s.files (user_file_name email) (json.dumps data) })

/-- read_user_record from the source: download the file content and json.loads
it; raises ResourceNotFoundError when the file is absent, and the json
decoding error of the json module when the content is not valid JSON. -/
def read_user_record (s : AdlsState) (email : String) :
    Except PyErr (List (String × String)) :=
  match alistGet s.files (user_file_name email) with
  | none => Except.error PyErr.resourceNotFound
  | some raw =>
    match json.loads raw with
    | some obj => Except.ok obj
    | none => Except.error PyErr.jsonDecodeError

/-- SignupRequest from the source.  Email validation (EmailStr) and date
parsing are performed by the pydantic layer, an external collaborator; dob is
therefore modelled directly as the ISO-8601 string that str(req.dob)
produces. -/
structure SignupRequest where
  name : String
  email : String
  password : String
  dob : String
  deriving DecidableEq

/-- SigninRequest from the source. -/
structure SigninRequest where
  email : String
  password : String
  deriving DecidableEq

/-- The literal success payload of the signup endpoint. -/
structure OkResponse where
  ok : Bool
  deriving DecidableEq

/-- SigninResponse from the source. -/
structure SigninResponse where
  token : String
  deriving DecidableEq

/-- ProfileResponse from the source: name, email and dob only; the response
model has no password_hash field. -/
structure ProfileResponse where
  name : String
  email : String
  dob : String
  deriving DecidableEq

/-- The keys of a record are pairwise distinct, as they are for every Python
dict and hence for every record the program builds. -/
def keysNodup (obj : List (String × String)) : Prop := (obj.map Prod.fst).Nodup

/-- The signup handler from the source.  The randomness bcrypt.gensalt()
draws is passed as the explicit saltRand argument.  An uncaught exception in
the Except.error result models the corresponding HTTP failure (HTTPException
with its status, or a 500 for any other uncaught error). -/
def signup (req : SignupRequest) (saltRand : Nat) (s : AdlsState) :
    Except PyErr OkResponse × AdlsState :=
  match user_exists s req.email with
  | Except.error e => (Except.error e, s)
  | Except.ok true => (Except.error (PyErr.httpException 400 "User already exists"), s)
  | Except.ok false =>
    match bcrypt.hashpw (strUtf8 req.password) (bcrypt.gensalt saltRand) with
    | Except.error e => (Except.error e, s)
    | Except.ok pw_hash =>
      let record := [("name", req.name), ("email", req.email),
                     ("dob", req.dob), ("password_hash", pw_hash)]
      match write_user_record record s with
      | (Except.ok _, s1) => (Except.ok { ok := true }, s1)
      | (Except.error e, s1) => (Except.error e, s1)

/-- The record signup builds and persists, spelled out with the hash value the
bcrypt model computes for the given password and salt randomness; the signup
characterisation theorem proves that signup stores exactly this record. -/
def signupRecord (req : SignupRequest) (saltRand : Nat) : List (String × String) :=
  [("name", req.name), ("email", req.email), ("dob", req.dob),
   ("password_hash", String.mk (bcrypt.saltMagic ++ hex4 (saltRand % 65536) ++
     bcrypt.bytesHex ((strUtf8 req.password).take 72)))]

/-- The signin handler from the source: read the record (ResourceNotFoundError
becomes a 401 with detail "Invalid credentials"), take
stored.get("password_hash", "") and check it with bcrypt.checkpw (a false
result becomes the same 401), and on success return the dummy token derived
from the email. -/
def signin (req : SigninRequest) (s : AdlsState) : Except PyErr SigninResponse :=
  match read_user_record s req.email with
  | Except.error PyErr.resourceNotFound =>
    Except.error (PyErr.httpException 401 "Invalid credentials")
  | Except.error e => Except.error e
  | Except.ok stored =>
    match bcrypt.checkpw (strUtf8 req.password) ((alistGet stored "password_hash").getD "") with
    | Except.error e => Except.error e
    | Except.ok false => Except.error (PyErr.httpException 401 "Invalid credentials")
    | Except.ok true => Except.ok { token := "dummy-token-for-" ++ req.email }

/-- The profile handler from the source: read the record
(ResourceNotFoundError becomes a 404 with detail "Profile not found") and
answer with record.get("name", ""), the email query parameter itself, and
record.get("dob", ""); the password_hash field is deliberately not copied. -/
def get_profile (email : String) (s : AdlsState) : Except PyErr ProfileResponse :=
  match read_user_record s email with
  | Except.error PyErr.resourceNotFound =>
    Except.error (PyErr.httpException 404 "Profile not found")
  | Except.error e => Except.error e
  | Except.ok record =>
    Except.ok { name := (alistGet record "name").getD "",
                email := email,
                dob := (alistGet record "dob").getD "" }

theorem hexVal_hexDigitChar : ∀ d : Nat, d < 16 → hexVal (hexDigitChar d) = some d := by
  decide

theorem hex4Val_digits (n : Nat) (h : n < 65536) :
    hex4Val (hexDigitChar (n / 4096)) (hexDigitChar (n / 256 % 16))
      (hexDigitChar (n / 16 % 16)) (hexDigitChar (n % 16)) = some n := by
  rw [hex4Val, hexVal_hexDigitChar _ (by omega), hexVal_hexDigitChar _ (by omega),
    hexVal_hexDigitChar _ (by omega), hexVal_hexDigitChar _ (by omega)]
  exact congrArg some (by omega)

theorem char_toNat_valid (c : Char) : c.toNat < 55296 ∨ (57343 < c.toNat ∧ c.toNat < 1114112) :=
  c.valid

theorem charOfNat_eq (c : Char) (n : Nat) (h : n = c.toNat) : Char.ofNat n = c := by
  subst h
  exact Char.ofNat_toNat c
theorem jstrStep_close (r : List Char) : json.jstrStep ('"' :: r) = some (none, r) := by
  simp [json.jstrStep]

theorem jstrStep_esc (c : Char) (r : List Char) :
    json.jstrStep (json.escChar c ++ r) = some (some c, r) := by
  by_cases h1 : c = '"'
  · subst h1; simp [json.escChar, json.jstrStep]
  by_cases h2 : c = '\\'
  · subst h2; simp [json.escChar, json.jstrStep]
  by_cases h3 : c = '\x08'
  · subst h3; simp [json.escChar, json.jstrStep]
  by_cases h4 : c = '\x09'
  · subst h4; simp [json.escChar, json.jstrStep]
  by_cases h5 : c = '\x0a'
  · subst h5; simp [json.escChar, json.jstrStep]
  by_cases h6 : c = '\x0c'
  · subst h6; simp [json.escChar, json.jstrStep]
  by_cases h7 : c = '\x0d'
  · subst h7; simp [json.escChar, json.jstrStep]
  by_cases h8 : c.toNat < 32 ∨ 126 < c.toNat
  · rcases char_toNat_valid c with hv | hv
    · have h9 : c.toNat < 65536 := by omega
      simp [json.escChar, h1, h2, h3, h4, h5, h6, h7, h8, h9, hex4, json.jstrStep,
        hex4Val_digits c.toNat h9, hv, Char.ofNat_toNat]
    · by_cases h9 : c.toNat < 65536
      · have nv1 : ¬ c.toNat < 55296 := by omega
        have nv2 : ¬ c.toNat < 56320 := by omega
        have nv3 : ¬ c.toNat < 57344 := by omega
        simp [json.escChar, h1, h2, h3, h4, h5, h6, h7, h8, h9, hex4, json.jstrStep,
          hex4Val_digits c.toNat h9, nv1, nv2, nv3, Char.ofNat_toNat]
      · have hn1lt : 55296 + (c.toNat - 65536) / 1024 < 65536 := by omega
        have hn2lt : 56320 + (c.toNat - 65536) % 1024 < 65536 := by omega
        have hs1 : ¬ 55296 + (c.toNat - 65536) / 1024 < 55296 := by omega
        have hs2 : 55296 + (c.toNat - 65536) / 1024 < 56320 := by omega
        have hm1 : 56320 ≤ 56320 + (c.toNat - 65536) % 1024 := by omega
        have hm2 : 56320 + (c.toNat - 65536) % 1024 < 57344 := by omega
        rw [json.escChar]
        rw [if_neg h1, if_neg h2, if_neg h3, if_neg h4, if_neg h5, if_neg h6, if_neg h7,
          if_pos h8, if_neg h9]
        rw [hex4, hex4]
        simp only [List.cons_append, List.append_assoc, List.nil_append]
        rw [json.jstrStep]
        simp only [hex4Val_digits _ hn1lt, hex4Val_digits _ hn2lt]
        simp [hs1, hs2, hm1, hm2]
        exact charOfNat_eq c _ (by omega)
  · have hlt : ¬ c.toNat < 32 := fun hh => h8 (Or.inl hh)
    have hgt : ¬ 126 < c.toNat := fun hh => h8 (Or.inr hh)
    simp [json.escChar, h1, h2, h3, h4, h5, h6, h7, hlt, hgt, json.jstrStep]

theorem escChar_ne_nil (c : Char) : json.escChar c ≠ [] := by
  rw [json.escChar]
  split_ifs <;> simp [hex4]

theorem escStr_length (l : List Char) : l.length ≤ (json.escStr l).length := by
  induction l with
  | nil => simp [json.escStr]
  | cons c l ih =>
    rw [json.escStr]
    have h1 : 0 < (json.escChar c).length := List.length_pos.mpr (escChar_ne_nil c)
    simp only [List.length_append, List.length_cons]
    omega

theorem parseJStrAux_escStr (l : List Char) : ∀ (fuel : Nat) (rest : List Char),
    l.length < fuel →
    json.parseJStrAux fuel (json.escStr l ++ '"' :: rest) = some (l, rest) := by
  induction l with
  | nil =>
    intro fuel rest h
    cases fuel with
    | zero => omega
    | succ fuel =>
      rw [json.escStr]
      simp only [List.nil_append]
      rw [json.parseJStrAux]
      simp [jstrStep_close]
  | cons c l ih =>
    intro fuel rest h
    cases fuel with
    | zero => omega
    | succ fuel =>
      have hl : l.length < fuel := by
        simp only [List.length_cons] at h
        omega
      rw [json.escStr, List.append_assoc]
      rw [json.parseJStrAux]
      rw [jstrStep_esc]
      simp [ih fuel rest hl]

theorem parseJStr_escStr (l : List Char) (rest : List Char) :
    json.parseJStr (json.escStr l ++ '"' :: rest) = some (l, rest) := by
  rw [json.parseJStr]
  apply parseJStrAux_escStr
  have := escStr_length l
  simp only [List.length_append, List.length_cons]
  omega
theorem stringMk_data (s : String) : String.mk s.data = s := rfl

theorem stringData_mk (l : List Char) : (String.mk l).data = l := rfl

theorem parseEntry_entryChars (kv : String × String) (r : List Char) :
    json.parseEntry (json.entryChars kv ++ r) = some (kv, r) := by
  obtain ⟨k, v⟩ := kv
  rw [json.entryChars, json.jstrChars, json.jstrChars]
  simp only [List.cons_append, List.append_assoc, List.nil_append, List.singleton_append]
  rw [json.parseEntry]
  simp [parseJStr_escStr, stringMk_data]

theorem parseMembers_membersChars (obj : List (String × String)) :
    obj ≠ [] → ∀ (fuel : Nat), obj.length ≤ fuel → ∀ (r : List Char),
    json.parseMembers fuel (json.membersChars obj ++ '\x7d' :: r) = some (obj, r) := by
  induction obj with
  | nil => intro h; exact absurd rfl h
  | cons kv tl ih =>
    intro _ fuel hf r
    cases fuel with
    | zero => simp at hf
    | succ fuel =>
      cases tl with
      | nil =>
        rw [json.membersChars, json.parseMembers, parseEntry_entryChars]
        simp
      | cons kv2 tl2 =>
        rw [json.membersChars]
        simp only [List.cons_append, List.append_assoc]
        rw [json.parseMembers, parseEntry_entryChars]
        have htl : (kv2 :: tl2).length ≤ fuel := by
          simp only [List.length_cons] at hf ⊢
          omega
        simp [ih (by simp) fuel htl r]

theorem alistGet_eq_none (l : List (String × String)) (k : String)
    (h : k ∉ l.map Prod.fst) : alistGet l k = none := by
  induction l with
  | nil => rfl
  | cons p tl ih =>
    simp only [List.map_cons, List.mem_cons, not_or] at h
    rw [alistGet, if_neg (fun hh => h.1 hh.symm)]
    exact ih h.2

theorem foldl_dictInsert (l : List (String × String)) : ∀ acc : List (String × String),
    ((acc ++ l).map Prod.fst).Nodup → l.foldl json.dictInsert acc = acc ++ l := by
  induction l with
  | nil => intro acc _; simp
  | cons kv tl ih =>
    intro acc h
    have h' := h
    rw [List.map_append, List.nodup_append] at h'
    have hmem : kv.1 ∉ acc.map Prod.fst := fun hin => h'.2.2 hin (by simp)
    rw [List.foldl_cons]
    have hstep : json.dictInsert acc kv = acc ++ [kv] := by
      rw [json.dictInsert, if_neg]
      simp [alistGet_eq_none _ _ hmem]
    rw [hstep]
    have hre : ((acc ++ [kv]) ++ tl).map Prod.fst |>.Nodup := by
      simpa [List.append_assoc] using h
    have := ih (acc ++ [kv]) hre
    simpa [List.append_assoc] using this

theorem fromPairs_eq (l : List (String × String)) (h : keysNodup l) :
    json.fromPairs l = l := by
  have := foldl_dictInsert l [] (by simpa [keysNodup] using h)
  simpa [json.fromPairs] using this

theorem membersChars_length (obj : List (String × String)) :
    obj.length ≤ (json.membersChars obj).length := by
  induction obj with
  | nil => simp [json.membersChars]
  | cons kv tl ih =>
    have hent : 0 < (json.entryChars kv).length := by
      obtain ⟨k, v⟩ := kv
      simp [json.entryChars, json.jstrChars]
    cases tl with
    | nil =>
      rw [json.membersChars]
      simp only [List.length_cons, List.length_nil]
      omega
    | cons kv2 tl2 =>
      rw [json.membersChars]
      simp only [List.length_append, List.length_cons] at ih ⊢
      omega

theorem membersChars_cons (kv : String × String) (tl : List (String × String)) :
    ∃ M : List Char, json.membersChars (kv :: tl) = '"' :: M := by
  obtain ⟨k, v⟩ := kv
  cases tl with
  | nil =>
    refine ⟨json.escStr k.data ++ '"' :: ':' :: ' ' :: json.jstrChars v, ?_⟩
    simp [json.membersChars, json.entryChars, json.jstrChars]
  | cons kv2 tl2 =>
    refine ⟨(json.escStr k.data ++ '"' :: ':' :: ' ' :: json.jstrChars v) ++
      ',' :: ' ' :: json.membersChars (kv2 :: tl2), ?_⟩
    simp [json.entryChars, json.jstrChars, json.membersChars]

theorem loads_dumps (obj : List (String × String)) (h : keysNodup obj) :
    json.loads (json.dumps obj) = some obj := by
  cases obj with
  | nil => rfl
  | cons kv tl =>
    obtain ⟨M, hM⟩ := membersChars_cons kv tl
    have hexp : ('"' :: (M ++ ['\x7d'])) = json.membersChars (kv :: tl) ++ '\x7d' :: [] := by
      rw [hM]
      simp [List.cons_append]
    have hfuel : (kv :: tl).length ≤ (json.membersChars (kv :: tl) ++ '\x7d' :: []).length := by
      have := membersChars_length (kv :: tl)
      simp only [List.length_append, List.length_cons] at this ⊢
      omega
    rw [json.dumps, json.loads, stringData_mk]
    simp only [List.cons_append]
    rw [hM]
    simp only [List.cons_append]
    simp only [hexp]
    rw [parseMembers_membersChars (kv :: tl) (by simp) _ hfuel []]
    simp [fromPairs_eq _ h]
theorem hashpw_gensalt (pb : List Nat) (r : Nat) :
    bcrypt.hashpw pb (bcrypt.gensalt r) =
      Except.ok (String.mk (bcrypt.saltMagic ++ hex4 (r % 65536) ++
        bcrypt.bytesHex (pb.take 72))) := by
  rw [bcrypt.hashpw, bcrypt.gensalt, stringData_mk]
  rw [if_pos]
  · rw [List.drop_left' (by rw [bcrypt.saltMagic]; rfl)]
    rw [List.take_of_length_le (by rw [hex4]; simp)]
  · refine ⟨List.take_left' (by rw [bcrypt.saltMagic]; rfl), ?_⟩
    rw [List.length_append, bcrypt.saltMagic, hex4]
    simp

theorem checkpw_hashString (pb1 pb2 : List Nat) (r : Nat) :
    bcrypt.checkpw pb2 (String.mk (bcrypt.saltMagic ++ hex4 (r % 65536) ++
        bcrypt.bytesHex (pb1.take 72))) =
      Except.ok (decide (bcrypt.bytesHex (pb2.take 72) = bcrypt.bytesHex (pb1.take 72))) := by
  have harg : bcrypt.hashpw pb2 (String.mk (bcrypt.saltMagic ++ hex4 (r % 65536) ++
      bcrypt.bytesHex (pb1.take 72))) =
      Except.ok (String.mk (bcrypt.saltMagic ++ hex4 (r % 65536) ++
        bcrypt.bytesHex (pb2.take 72))) := by
    rw [bcrypt.hashpw, stringData_mk, List.append_assoc]
    rw [if_pos]
    · rw [List.drop_left' (by rw [bcrypt.saltMagic]; rfl)]
      rw [List.take_left' (by rw [hex4]; rfl)]
    · refine ⟨List.take_left' (by rw [bcrypt.saltMagic]; rfl), ?_⟩
      simp [bcrypt.saltMagic, hex4]
  have hiff : (String.mk (bcrypt.saltMagic ++ hex4 (r % 65536) ++ bcrypt.bytesHex (pb2.take 72)) =
      String.mk (bcrypt.saltMagic ++ hex4 (r % 65536) ++ bcrypt.bytesHex (pb1.take 72))) ↔
      (bcrypt.bytesHex (pb2.take 72) = bcrypt.bytesHex (pb1.take 72)) := by
    simp [String.ext_iff, stringData_mk, List.append_assoc]
  rw [bcrypt.checkpw, harg]
  simp only [decide_eq_decide.mpr hiff]

theorem hexDigitChar_inj : ∀ a : Nat, a < 16 → ∀ b : Nat, b < 16 →
    hexDigitChar a = hexDigitChar b → a = b := by
  decide

theorem bytesHex_inj : ∀ l1 l2 : List Nat, (∀ b ∈ l1, b < 256) → (∀ b ∈ l2, b < 256) →
    bcrypt.bytesHex l1 = bcrypt.bytesHex l2 → l1 = l2 := by
  intro l1
  induction l1 with
  | nil =>
    intro l2 _ _ h
    cases l2 with
    | nil => rfl
    | cons b tl => simp [bcrypt.bytesHex, bcrypt.byteHexChars] at h
  | cons b1 tl1 ih =>
    intro l2 hb1 hb2 h
    cases l2 with
    | nil => simp [bcrypt.bytesHex, bcrypt.byteHexChars] at h
    | cons b2 tl2 =>
      rw [bcrypt.bytesHex, bcrypt.bytesHex, bcrypt.byteHexChars, bcrypt.byteHexChars] at h
      simp only [List.cons_append, List.nil_append, List.cons.injEq] at h
      obtain ⟨hd1, hd2, htl⟩ := h
      have hbb1 : b1 < 256 := hb1 b1 (by simp)
      have hbb2 : b2 < 256 := hb2 b2 (by simp)
      have e1 : b1 / 16 % 16 = b2 / 16 % 16 :=
        hexDigitChar_inj _ (by omega) _ (by omega) hd1
      have e2 : b1 % 16 = b2 % 16 :=
        hexDigitChar_inj _ (by omega) _ (by omega) hd2
      have : b1 = b2 := by omega
      subst this
      rw [ih tl2 (fun b hb => hb1 b (by simp [hb])) (fun b hb => hb2 b (by simp [hb])) htl]

theorem charUtf8_lt (c : Char) : ∀ b ∈ charUtf8 c, b < 256 := by
  intro b hb
  have hv := char_toNat_valid c
  rw [charUtf8] at hb
  split_ifs at hb <;> simp at hb <;> omega

theorem strUtf8Aux_lt (l : List Char) : ∀ b ∈ strUtf8Aux l, b < 256 := by
  induction l with
  | nil => intro b hb; simp [strUtf8Aux] at hb
  | cons c tl ih =>
    intro b hb
    rw [strUtf8Aux] at hb
    rcases List.mem_append.mp hb with h | h
    · exact charUtf8_lt c b h
    · exact ih b h

theorem strUtf8_lt (s : String) : ∀ b ∈ strUtf8 s, b < 256 :=
  fun b hb => strUtf8Aux_lt s.data b hb
theorem alistGet_alistSet_self (l : List (String × String)) (k v : String) :
    alistGet (alistSet l k v) k = some v := by
  induction l with
  | nil => simp [alistSet, alistGet]
  | cons p tl ih =>
    rw [alistSet]
    by_cases h : p.1 = k
    · rw [if_pos h, alistGet, if_pos rfl]
    · rw [if_neg h, alistGet, if_neg h]
      exact ih

theorem alistGet_alistSet_ne (l : List (String × String)) (k v k' : String) (h : k ≠ k') :
    alistGet (alistSet l k v) k' = alistGet l k' := by
  induction l with
  | nil => simp [alistSet, alistGet, h]
  | cons p tl ih =>
    rw [alistSet]
    by_cases hp : p.1 = k
    · rw [if_pos hp, alistGet, alistGet,
        if_neg (show ¬((k, v) : String × String).1 = k' from h),
        if_neg (fun hh => h (hp.symm.trans hh))]
    · rw [if_neg hp, alistGet, alistGet]
      by_cases hp' : p.1 = k'
      · rw [if_pos hp', if_pos hp']
      · rw [if_neg hp', if_neg hp']
        exact ih
theorem user_exists_eq (s : AdlsState) (e : String) :
    user_exists s e = Except.ok ((alistGet s.files (user_file_name e)).isSome) := by
  cases h : alistGet s.files (user_file_name e) <;>
    simp [user_exists, get_file_properties, h]

theorem read_user_record_none (s : AdlsState) (e : String)
    (h : alistGet s.files (user_file_name e) = none) :
    read_user_record s e = Except.error PyErr.resourceNotFound := by
  rw [read_user_record, h]

theorem read_user_record_dumps (s : AdlsState) (e : String) (obj : List (String × String))
    (h : alistGet s.files (user_file_name e) = some (json.dumps obj)) (hk : keysNodup obj) :
    read_user_record s e = Except.ok obj := by
  rw [read_user_record, h]
  simp [loads_dumps obj hk]

theorem signupRecord_keysNodup (req : SignupRequest) (saltRand : Nat) :
    keysNodup (signupRecord req saltRand) := by
  simp [signupRecord, keysNodup]

theorem signup_fresh (req : SignupRequest) (saltRand : Nat) (s : AdlsState)
    (h : alistGet s.files (user_file_name req.email) = none) :
    signup req saltRand s =
      (Except.ok { ok := true },
       { s with files := alistSet s.files (user_file_name req.email) (json.dumps (signupRecord req saltRand)) }) := by
  rw [signup, user_exists_eq, h]
  simp only [Option.isSome_none]
  rw [hashpw_gensalt]
  simp only [write_user_record, signupRecord]
  simp [alistGet]

theorem signup_taken (req : SignupRequest) (saltRand : Nat) (s : AdlsState) (raw : String)
    (h : alistGet s.files (user_file_name req.email) = some raw) :
    signup req saltRand s =
      (Except.error (PyErr.httpException 400 "User already exists"), s) := by
  rw [signup, user_exists_eq, h]
  simp
theorem signin_ok_token (req : SigninRequest) (s : AdlsState) (resp : SigninResponse)
    (h : signin req s = Except.ok resp) : resp.token = "dummy-token-for-" ++ req.email := by
  cases hr : read_user_record s req.email with
  | error e =>
    cases e <;> simp [signin, hr] at h
  | ok stored =>
    cases hc : bcrypt.checkpw (strUtf8 req.password) ((alistGet stored "password_hash").getD "") with
    | error e => simp [signin, hr, hc] at h
    | ok b =>
      cases b
      · simp [signin, hr, hc] at h
      · simp [signin, hr, hc] at h
        rw [← h]
/-- C1: for every valid signup payload whose email has no record file, signup
returns ok true and persists the full record (reading it back succeeds); for
every signup whose email already has a record file, signup fails with an
HTTPException of status 400 carrying exactly the detail "User already exists"
and leaves the storage state unchanged. -/
theorem signup_conflict_contract (req : SignupRequest) (saltRand : Nat) (s : AdlsState) :
    (alistGet s.files (user_file_name req.email) = none →
      signup req saltRand s =
        (Except.ok { ok := true },
         { s with files := alistSet s.files (user_file_name req.email) (json.dumps (signupRecord req saltRand)) }) ∧
      read_user_record
        { s with files := alistSet s.files (user_file_name req.email) (json.dumps (signupRecord req saltRand)) }
        req.email = Except.ok (signupRecord req saltRand)) ∧
    (∀ raw : String, alistGet s.files (user_file_name req.email) = some raw →
      signup req saltRand s = (Except.error (PyErr.httpException 400 "User already exists"), s)) := by
  refine ⟨fun h => ⟨signup_fresh req saltRand s h, ?_⟩,
    fun raw h => signup_taken req saltRand s raw h⟩
  exact read_user_record_dumps _ _ _
    (alistGet_alistSet_self s.files (user_file_name req.email) (json.dumps (signupRecord req saltRand)))
    (signupRecord_keysNodup req saltRand)

theorem signup_conflict_contract_witness :
    (signup { name := "Ann", email := "a@x.com", password := "secret1", dob := "1990-01-01" } 0
       { fileSystemExists := true, directoryExists := true, files := [] } =
      (Except.ok { ok := true },
       { fileSystemExists := true, directoryExists := true,
         files := alistSet [] (user_file_name "a@x.com")
           (json.dumps (signupRecord { name := "Ann", email := "a@x.com", password := "secret1", dob := "1990-01-01" } 0)) }) ∧
     read_user_record
       { fileSystemExists := true, directoryExists := true,
         files := alistSet [] (user_file_name "a@x.com")
           (json.dumps (signupRecord { name := "Ann", email := "a@x.com", password := "secret1", dob := "1990-01-01" } 0)) }
       "a@x.com" =
       Except.ok (signupRecord { name := "Ann", email := "a@x.com", password := "secret1", dob := "1990-01-01" } 0)) ∧
    signup { name := "Ann2", email := "a@x.com", password := "other", dob := "1991-01-01" } 7
      { fileSystemExists := true, directoryExists := true,
        files := alistSet [] (user_file_name "a@x.com")
          (json.dumps (signupRecord { name := "Ann", email := "a@x.com", password := "secret1", dob := "1990-01-01" } 0)) } =
      (Except.error (PyErr.httpException 400 "User already exists"),
       { fileSystemExists := true, directoryExists := true,
         files := alistSet [] (user_file_name "a@x.com")
           (json.dumps (signupRecord { name := "Ann", email := "a@x.com", password := "secret1", dob := "1990-01-01" } 0)) }) := by
  constructor
  · exact (signup_conflict_contract _ 0 _).1 (by decide)
  · exact (signup_conflict_contract _ 7 _).2
      (json.dumps (signupRecord { name := "Ann", email := "a@x.com", password := "secret1", dob := "1990-01-01" } 0))
      (by decide)
/-- C2: for every signin request, an absent record file and a failing password
verification both produce the same failure: an HTTPException of status 401
carrying exactly the detail "Invalid credentials". -/
theorem signin_unauthorized_contract (req : SigninRequest) (s : AdlsState) :
    (alistGet s.files (user_file_name req.email) = none →
      signin req s = Except.error (PyErr.httpException 401 "Invalid credentials")) ∧
    (∀ stored : List (String × String), read_user_record s req.email = Except.ok stored →
      bcrypt.checkpw (strUtf8 req.password) ((alistGet stored "password_hash").getD "") =
        Except.ok false →
      signin req s = Except.error (PyErr.httpException 401 "Invalid credentials")) := by
  constructor
  · intro h
    simp [signin, read_user_record_none s req.email h]
  · intro stored hr hc
    simp [signin, hr, hc]

theorem signin_unauthorized_contract_witness :
    signin { email := "a@x.com", password := "secret1" }
      { fileSystemExists := true, directoryExists := true, files := [] } =
      Except.error (PyErr.httpException 401 "Invalid credentials") ∧
    signin { email := "a@x.com", password := "wrong" }
      { fileSystemExists := true, directoryExists := true,
        files := [(user_file_name "a@x.com",
          json.dumps (signupRecord { name := "Ann", email := "a@x.com", password := "secret1", dob := "1990-01-01" } 0))] } =
      Except.error (PyErr.httpException 401 "Invalid credentials") := by
  constructor
  · exact (signin_unauthorized_contract _ _).1 (by decide)
  · exact (signin_unauthorized_contract _ _).2
      (signupRecord { name := "Ann", email := "a@x.com", password := "secret1", dob := "1990-01-01" } 0)
      (by decide) (by decide)
/-- C3 (code-bug evidence): for every plaintext password, verifying against a
blank stored hash raises ValueError("Invalid salt") instead of returning
false, so a signin against a record whose password_hash field is absent (the
dict .get default makes it the empty string) surfaces an uncaught ValueError
(an HTTP 500), not the 401 Unauthorized the specification requires. -/
theorem signin_blank_hash_raises :
    (∀ password : String,
      bcrypt.checkpw (strUtf8 password) "" = Except.error (PyErr.valueError "Invalid salt")) ∧
    signin { email := "bob@x.com", password := "pw" }
      { fileSystemExists := true, directoryExists := true,
        files := [(user_file_name "bob@x.com", json.dumps [("name", "Bob")])] } =
      Except.error (PyErr.valueError "Invalid salt") := by
  constructor
  · intro password
    rfl
  · decide

/-- C4: after a signup on a fresh email, the profile endpoint answers with
exactly the name, email and dob of the signup input; the response model
carries no password_hash field. -/
theorem profile_after_signup_contract (req : SignupRequest) (saltRand : Nat) (s : AdlsState)
    (h : alistGet s.files (user_file_name req.email) = none) :
    get_profile req.email (signup req saltRand s).2 =
      Except.ok { name := req.name, email := req.email, dob := req.dob } := by
  rw [signup_fresh req saltRand s h]
  have hread := read_user_record_dumps
    { s with files := alistSet s.files (user_file_name req.email) (json.dumps (signupRecord req saltRand)) }
    req.email (signupRecord req saltRand)
    (alistGet_alistSet_self s.files (user_file_name req.email) (json.dumps (signupRecord req saltRand)))
    (signupRecord_keysNodup req saltRand)
  rw [get_profile, hread]
  simp [signupRecord, alistGet]

theorem profile_after_signup_contract_witness :
    get_profile "a@x.com"
      (signup { name := "Ann", email := "a@x.com", password := "secret1", dob := "1990-01-01" } 0
        { fileSystemExists := true, directoryExists := true, files := [] }).2 =
      Except.ok { name := "Ann", email := "a@x.com", dob := "1990-01-01" } :=
  profile_after_signup_contract
    { name := "Ann", email := "a@x.com", password := "secret1", dob := "1990-01-01" } 0
    { fileSystemExists := true, directoryExists := true, files := [] } (by decide)
set_option maxRecDepth 20000 in
/-- C5 (counterexample): two distinct passwords that agree on their first 72
bytes verify against the hash of the other with certainty, because the bcrypt
algorithm ignores every password byte after the 72nd; so it is false that for
all distinct passwords verification against the hash of the other fails. -/
theorem bcrypt_verify_counterexample :
    String.mk (List.replicate 73 'a') ≠ String.mk (List.replicate 72 'a') ∧
    (bcrypt.hashpw (strUtf8 (String.mk (List.replicate 73 'a'))) (bcrypt.gensalt 5)).bind
      (fun h => bcrypt.checkpw (strUtf8 (String.mk (List.replicate 72 'a'))) h) =
      Except.ok true := by
  constructor
  · decide
  · decide

/-- C5 (amended): for every password, verifying it against its own fresh hash
succeeds; and for every two passwords whose UTF-8 encodings differ within the
first 72 bytes, verifying one against the hash of the other fails (in this
ideal-digest model with certainty; for real bcrypt, with overwhelming
probability). -/
theorem bcrypt_hash_verify_law (p : String) (r : Nat) :
    ((bcrypt.hashpw (strUtf8 p) (bcrypt.gensalt r)).bind
      (fun h => bcrypt.checkpw (strUtf8 p) h) = Except.ok true) ∧
    (∀ p1 p2 : String, (strUtf8 p1).take 72 ≠ (strUtf8 p2).take 72 →
      (bcrypt.hashpw (strUtf8 p1) (bcrypt.gensalt r)).bind
        (fun h => bcrypt.checkpw (strUtf8 p2) h) = Except.ok false) := by
  constructor
  · rw [hashpw_gensalt]
    simp only [Except.bind]
    rw [checkpw_hashString]
    simp
  · intro p1 p2 hne
    rw [hashpw_gensalt]
    simp only [Except.bind]
    rw [checkpw_hashString]
    have : ¬ bcrypt.bytesHex ((strUtf8 p2).take 72) = bcrypt.bytesHex ((strUtf8 p1).take 72) := by
      intro heq
      exact hne (bytesHex_inj _ _
        (fun b hb => strUtf8_lt p2 b (List.mem_of_mem_take hb))
        (fun b hb => strUtf8_lt p1 b (List.mem_of_mem_take hb)) heq).symm
    simp [this]

theorem bcrypt_hash_verify_law_witness :
    ((bcrypt.hashpw (strUtf8 "x") (bcrypt.gensalt 0)).bind
      (fun h => bcrypt.checkpw (strUtf8 "x") h) = Except.ok true) ∧
    ((bcrypt.hashpw (strUtf8 "x") (bcrypt.gensalt 0)).bind
      (fun h => bcrypt.checkpw (strUtf8 "y") h) = Except.ok false) :=
  ⟨(bcrypt_hash_verify_law "x" 0).1, (bcrypt_hash_verify_law "x" 0).2 "x" "y" (by decide)⟩

/-- C6: writing a user record serialises the whole record as JSON under the
key derived from its email field, overwriting any previous file content and
making it immediately visible: a subsequent read returns the record with every
field exactly as written. -/
theorem write_read_roundtrip_contract (data : List (String × String)) (s : AdlsState)
    (e : String) (hk : keysNodup data) (he : alistGet data "email" = some e) :
    write_user_record data s =
      (Except.ok (), { s with files := alistSet s.files (user_file_name e) (json.dumps data) }) ∧
    read_user_record { s with files := alistSet s.files (user_file_name e) (json.dumps data) } e =
      Except.ok data := by
  constructor
  · rw [write_user_record, he]
  · exact read_user_record_dumps _ _ _
      (alistGet_alistSet_self s.files (user_file_name e) (json.dumps data)) hk

theorem write_read_roundtrip_contract_witness :
    write_user_record
      [("name", "Ann"), ("email", "a@x.com"), ("dob", "1990-01-01"), ("password_hash", "h1")]
      { fileSystemExists := true, directoryExists := true,
        files := [(user_file_name "a@x.com", "old content")] } =
      (Except.ok (),
       { fileSystemExists := true, directoryExists := true,
         files := alistSet [(user_file_name "a@x.com", "old content")] (user_file_name "a@x.com")
           (json.dumps [("name", "Ann"), ("email", "a@x.com"), ("dob", "1990-01-01"), ("password_hash", "h1")]) }) ∧
    read_user_record
      { fileSystemExists := true, directoryExists := true,
        files := alistSet [(user_file_name "a@x.com", "old content")] (user_file_name "a@x.com")
          (json.dumps [("name", "Ann"), ("email", "a@x.com"), ("dob", "1990-01-01"), ("password_hash", "h1")]) }
      "a@x.com" =
      Except.ok [("name", "Ann"), ("email", "a@x.com"), ("dob", "1990-01-01"), ("password_hash", "h1")] :=
  write_read_roundtrip_contract
    [("name", "Ann"), ("email", "a@x.com"), ("dob", "1990-01-01"), ("password_hash", "h1")]
    { fileSystemExists := true, directoryExists := true,
      files := [(user_file_name "a@x.com", "old content")] }
    "a@x.com" (by rw [keysNodup]; decide) (by decide)

/-- C7: every successful signin returns the token "dummy-token-for-<email>",
which is non-empty and a deterministic function of the email alone: two
successful signins for the same email return identical tokens. -/
theorem signin_token_contract (req : SigninRequest) (s : AdlsState) (resp : SigninResponse)
    (h : signin req s = Except.ok resp) :
    resp.token = "dummy-token-for-" ++ req.email ∧ resp.token ≠ "" ∧
    ∀ (req2 : SigninRequest) (s2 : AdlsState) (resp2 : SigninResponse),
      req2.email = req.email → signin req2 s2 = Except.ok resp2 → resp2.token = resp.token := by
  have h1 := signin_ok_token req s resp h
  refine ⟨h1, ?_, ?_⟩
  · rw [h1]
    intro hk
    have hd := congrArg String.data hk
    rw [String.data_append] at hd
    exact absurd (List.append_eq_nil.mp hd).1 (by decide)
  · intro req2 s2 resp2 he h2
    rw [signin_ok_token req2 s2 resp2 h2, he, h1]

theorem signin_token_contract_witness :
    signin { email := "a@x.com", password := "secret1" }
      (signup { name := "Ann", email := "a@x.com", password := "secret1", dob := "1990-01-01" } 0
        { fileSystemExists := true, directoryExists := true, files := [] }).2 =
      Except.ok { token := "dummy-token-for-a@x.com" } ∧
    ({ token := "dummy-token-for-a@x.com" } : SigninResponse).token =
      "dummy-token-for-" ++ "a@x.com" ∧
    ({ token := "dummy-token-for-a@x.com" } : SigninResponse).token ≠ "" := by
  have hs : signin { email := "a@x.com", password := "secret1" }
      (signup { name := "Ann", email := "a@x.com", password := "secret1", dob := "1990-01-01" } 0
        { fileSystemExists := true, directoryExists := true, files := [] }).2 =
      Except.ok { token := "dummy-token-for-a@x.com" } := by decide
  have h := signin_token_contract _ _ _ hs
  exact ⟨hs, h.1, h.2.1⟩

/-- C8: ensuring the namespace succeeds from every storage state, leaving both
the file system and the directory existing with the files untouched, and the
"already exists" errors of a repeated run are swallowed: running it again on
the resulting state succeeds and changes nothing. -/
theorem ensure_namespace_idempotent (s : AdlsState) :
    ensure_filesystem_and_directory s =
      (Except.ok (), { s with fileSystemExists := true, directoryExists := true }) ∧
    ensure_filesystem_and_directory { s with fileSystemExists := true, directoryExists := true } =
      (Except.ok (), { s with fileSystemExists := true, directoryExists := true }) := by
  obtain ⟨fs, dir, files⟩ := s
  constructor
  · cases fs <;> cases dir <;>
      simp [ensure_filesystem_and_directory, create_file_system, create_directory, swallowExists]
  · simp [ensure_filesystem_and_directory, create_file_system, create_directory, swallowExists]

/-- C9: user_exists returns ok true exactly when a record file is present for
the file name derived from the email and ok false when it is absent; the
ResourceNotFoundError of an absent file is the only storage condition it
converts into a normal boolean result, and it never propagates an error. -/
theorem user_exists_contract (s : AdlsState) (e : String) :
    user_exists s e = Except.ok ((alistGet s.files (user_file_name e)).isSome) :=
  user_exists_eq s e

/-- C10: for every stored record that deserialises, the profile endpoint never
fails on missing fields: an absent name or dob key becomes the empty string,
and the email of the response is the query parameter itself, not the email
field stored inside the record. -/
theorem profile_missing_fields_contract (e : String) (s : AdlsState) (raw : String)
    (obj : List (String × String)) (hfile : alistGet s.files (user_file_name e) = some raw)
    (hload : json.loads raw = some obj) :
    get_profile e s =
      Except.ok { name := (alistGet obj "name").getD "", email := e,
                  dob := (alistGet obj "dob").getD "" } := by
  rw [get_profile, read_user_record, hfile]
  simp [hload]

theorem profile_missing_fields_contract_witness :
    get_profile "q@x.com"
      { fileSystemExists := true, directoryExists := true,
        files := [(user_file_name "q@x.com", json.dumps [("email", "other@x.com")])] } =
      Except.ok { name := "", email := "q@x.com", dob := "" } :=
  profile_missing_fields_contract "q@x.com"
    { fileSystemExists := true, directoryExists := true,
      files := [(user_file_name "q@x.com", json.dumps [("email", "other@x.com")])] }
    (json.dumps [("email", "other@x.com")]) [("email", "other@x.com")]
    (by decide) (by decide)
